import Mathlib

/-!
Verification development for `exp_resnet.py` (1-D residual network for
signal classification).

The Python source is shallowly embedded.  Conventions:

* Machine integers in Python are arbitrary-precision; loop indices and
  tensor lengths are nonnegative, so they are modelled as `Nat`.
  Python's `max(0, a - b)` on naturals coincides with truncated `Nat`
  subtraction `a - b`, which is used where the source writes `max(0, ...)`.
* Channel counts flow through signed Python arithmetic
  (`base_filters * 2**((i-1)//2)`, `out_channels - in_channels`), so they
  are modelled as `Int`; Python's floor division `//` is `Int.fdiv`.
* Tensors are modelled at two levels: a shape level (channel count and
  length along the position axis), used for the padding/length and
  progression-rule claims, and a value level over `ℝ` (introduced further
  down) for the numeric claims.
-/

namespace ResNet1D

/-! ### Same padding for convolution (MyConv1dPadSame.forward, lines 41-50)

The source computes
  `out_dim = (in_dim + stride - 1) // stride`
  `p = max(0, (out_dim - 1) * stride + kernel_size - in_dim)`
  `pad_left = p // 2`, `pad_right = p - pad_left`
then zero-pads by `(pad_left, pad_right)` and applies `nn.Conv1d` with the
given kernel and stride and no further padding. -/

/-- Total "same" padding amount, from `MyConv1dPadSame.forward` lines 42-44.
`Nat` subtraction realizes the `max(0, ...)`; for `in_dim ≥ 1` the
intermediate `out_dim - 1` never truncates, matching Python. -/
def samePadTotal (kernel stride inDim : Nat) : Nat :=
  let outDim := (inDim + stride - 1) / stride
  (outDim - 1) * stride + kernel - inDim

/-- Split of a total padding amount `p` into `(pad_left, pad_right)`,
from lines 45-46: `pad_left = p // 2`, `pad_right = p - pad_left`. -/
def padSplit (p : Nat) : Nat × Nat :=
  (p / 2, p - p / 2)

/-- Output length of `torch.nn.Conv1d` (padding 0, dilation 1) on an input
of length `inDim`: `floor((inDim - kernel) / stride) + 1`, defined when
`kernel ≤ inDim` (torch raises otherwise; the same-pad wrapper always
satisfies this, proved below). -/
def convNoPadOutLen (kernel stride inDim : Nat) : Nat :=
  (inDim - kernel) / stride + 1

/-- Output length of `MyConv1dPadSame.forward`: pad by the computed split,
then run the convolution. -/
def convForwardOutLen (kernel stride inDim : Nat) : Nat :=
  let p := samePadTotal kernel stride inDim
  let pl := (padSplit p).1
  let pr := (padSplit p).2
  convNoPadOutLen kernel stride (pl + inDim + pr)

/-! ### Same padding for max pooling (MyMaxPool1dPadSame.forward, lines 61-70)

The padding amount is computed with `self.stride = 1` (line 59), but the
windowed operation is `torch.nn.MaxPool1d(kernel_size=self.kernel_size)`
(line 69), whose `stride` argument *defaults to `kernel_size`* in PyTorch.
So the window slides with stride `kernel_size` over the padded input. -/

/-- Output length of `torch.nn.MaxPool1d(kernel_size=k)` (stride defaults
to `k`, padding 0, dilation 1) on an input of length `inDim`:
`floor((inDim - k) / k) + 1`, defined when `k ≤ inDim`. -/
def maxPoolNoPadOutLen (kernel inDim : Nat) : Nat :=
  (inDim - kernel) / kernel + 1

/-- Output length of `MyMaxPool1dPadSame.forward`: same-padding computed
with stride 1, then `MaxPool1d` with its default stride (= kernel). -/
def maxPoolSamePadOutLen (kernel inDim : Nat) : Nat :=
  let p := samePadTotal kernel 1 inDim
  let pl := (padSplit p).1
  let pr := (padSplit p).2
  maxPoolNoPadOutLen kernel (pl + inDim + pr)

/-! ### Bottleneck block structure (Bottleneck, lines 72-138) -/

/-- One operation applied on the main branch of `Bottleneck.forward`. -/
inductive LayerOp where
  | batchnorm : LayerOp
  | relu : LayerOp
  | dropout : LayerOp
  | convFirst : LayerOp
  | convSecond : LayerOp
deriving DecidableEq, Repr

/-- The ordered list of operations `Bottleneck.forward` (lines 105-121)
applies on the main branch, as a function of the `is_first_block` flag.
The source guards the pre-activation `bn1 → relu1 → do1` with
`if self.is_first_block:` (line 111), so it runs exactly when
`is_first_block` is true. -/
def bottleneckMainBranchOps (isFirstBlock : Bool) : List LayerOp :=
  (if isFirstBlock then [.batchnorm, .relu, .dropout] else []) ++
    [.convFirst, .batchnorm, .relu, .dropout, .convSecond]

/-- Identity-branch channel padding amounts `(ch1, ch2)` from
`Bottleneck.forward` lines 130-131:
`ch1 = (out_channels - in_channels) // 2`,
`ch2 = out_channels - in_channels - ch1` (Python floor division). -/
def identityPadChannels (inC outC : Int) : Int × Int :=
  let ch1 := (outC - inC).fdiv 2
  (ch1, outC - inC - ch1)

/-! ### Progression rule (ResNet.__init__, lines 162-187) -/

/-- Configuration of one bottleneck block. -/
structure BlockCfg where
  inC : Int
  outC : Int
  downsample : Bool
  isFirst : Bool
deriving DecidableEq, Repr

/-- Block configuration derived for loop index `i` in `ResNet.__init__`
(lines 164-184): `is_first_block = (i == 0)`, `downsample = (i % 2 == 1)`;
for the first block `in_channels = out_channels = base_filters`, otherwise
`in_channels = base_filters * 2**((i-1)//2)` and `out_channels` equals
`in_channels` when downsampling, else `in_channels * 2`. -/
def blockCfg (baseFilters : Int) (i : Nat) : BlockCfg :=
  let isFirst := i == 0
  let ds := i % 2 == 1
  if isFirst then
    { inC := baseFilters, outC := baseFilters, downsample := ds, isFirst }
  else
    let cin := baseFilters * 2 ^ ((i - 1) / 2)
    { inC := cin, outC := if ds then cin else cin * 2, downsample := ds, isFirst }

/-- The ordered block configuration list built by the construction loop
`for i_block in range(self.n_block)` (line 164). -/
def blockCfgList (baseFilters : Int) (nBlock : Nat) : List BlockCfg :=
  (List.range nBlock).map (blockCfg baseFilters)

/-- Dummy configuration used as the default of `List.getD`. -/
def dummyCfg : BlockCfg :=
  { inC := 0, outC := 0, downsample := true, isFirst := false }

/-! ### Construction (ResNet.__init__, lines 149-193)

`ResNet.__init__` performs no validation.  `MyConv1dPadSame.__init__` and
`MyMaxPool1dPadSame.__init__` only store their arguments (the torch
`Conv1d`/`MaxPool1d` objects are built inside `forward`, lines 47-49 and
67-69), so an invalid kernel size or stride is accepted at construction.
The only failure `__init__` itself can raise is a `NameError`: after the
loop, line 190 reads the loop-local `out_channels`, which is unbound when
`range(n_block)` is empty, i.e. when `n_block < 1`.  The torch layer
constructors reached at `__init__` time (`BatchNorm1d`, `Dropout`,
`Linear`, `Softmax`) are modelled as total parameter containers, which is
accurate for the nonnegative sizes the theorems below quantify over. -/

/-- The configuration a successfully constructed `ResNet` holds. -/
structure ResNetCfg where
  inChannels : Int
  baseFilters : Int
  kernelSize : Int
  stride : Int
  nClasses : Int
  blocks : List BlockCfg
  finalChannels : Int
deriving Repr

/-- Model of `ResNet.__init__` (lines 149-193).  The block list is derived
by the loop; `n_block` is a Python int, and `range(n)` is empty for
`n ≤ 0` (`Int.toNat` clamps).  The final layers (lines 190-192) read the
loop variable `out_channels`, which is unbound — a `NameError`, modelled
as `Except.error` — exactly when the loop never ran. -/
def resnetInit (inChannels baseFilters kernelSize stride nBlock nClasses : Int) :
    Except String ResNetCfg :=
  let blocks := blockCfgList baseFilters nBlock.toNat
  match blocks.getLast? with
  | none => .error "NameError: name out_channels is not defined"
  | some last =>
      .ok { inChannels, baseFilters, kernelSize, stride, nClasses,
            blocks, finalChannels := last.outC }

/-! ### Shape-level semantics of a bottleneck block -/

/-- Shape of a (per-sample) tensor: channel count and length along the
position axis. -/
structure Shape2 where
  chans : Int
  len : Nat
deriving DecidableEq, Repr

/-- Shape of the main branch of `Bottleneck.forward` (lines 110-121):
batchnorm/relu/dropout preserve shape; `conv1` maps to `out_channels`
with stride `stride` if `downsample` else 1 (lines 90-95); `conv2` keeps
`out_channels` with stride 1 (line 101). -/
def bottleneckMainShape (cfg : BlockCfg) (kernel stride : Nat) (sh : Shape2) : Shape2 :=
  let stride1 := if cfg.downsample then stride else 1
  let len1 := convForwardOutLen kernel stride1 sh.len
  let len2 := convForwardOutLen kernel 1 len1
  { chans := cfg.outC, len := len2 }

/-- Shape of the identity branch of `Bottleneck.forward` (lines 107,
123-133): max-pool with kernel `stride` when downsampling (line 103,
125), then — when `out_channels != in_channels` — zero channels `ch1`
before and `ch2` after (transpose, `ConstantPad1d`, transpose back). -/
def bottleneckIdentityShape (cfg : BlockCfg) (stride : Nat) (sh : Shape2) : Shape2 :=
  let len := if cfg.downsample then maxPoolSamePadOutLen stride sh.len else sh.len
  let chans :=
    if cfg.outC ≠ cfg.inC then
      sh.chans + (identityPadChannels cfg.inC cfg.outC).1
        + (identityPadChannels cfg.inC cfg.outC).2
    else sh.chans
  { chans, len }

/-- Shape-level result of a bottleneck block: the residual addition
`out += identity` (line 136) requires both branches to have equal shape;
a mismatch is the runtime shape error, modelled as `none`. -/
def bottleneckAddShape (cfg : BlockCfg) (kernel stride : Nat) (sh : Shape2) :
    Option Shape2 :=
  let m := bottleneckMainShape cfg kernel stride sh
  let idt := bottleneckIdentityShape cfg stride sh
  if m = idt then some m else none

/-- Shape-level run of the residual-block stage (`ResNet.forward`,
lines 209-213): blocks applied in order, failing if any addition fails. -/
def runBlocksShape (kernel stride : Nat) : List BlockCfg → Shape2 → Option Shape2
  | [], sh => some sh
  | cfg :: rest, sh =>
      (bottleneckAddShape cfg kernel stride sh).bind (runBlocksShape kernel stride rest)

/-- Shape-level run of the network up to the end of the residual stage:
first conv (`in_channels → base_filters`, stride 1, line 158/202), then
the derived block list. -/
def resnetShapeRun (baseFilters : Int) (kernel stride nBlock inLen : Nat) :
    Option Shape2 :=
  let sh0 : Shape2 := { chans := baseFilters, len := convForwardOutLen kernel 1 inLen }
  runBlocksShape kernel stride (blockCfgList baseFilters nBlock) sh0

/-! ### Value-level semantics over ℝ

A per-sample tensor is a list of channels, each a list of positions.
Floating-point arithmetic is idealized as real arithmetic.  BatchNorm is
modelled in its inference-mode (running-statistics) form, the mode the
value-level claims address; the `training` flag gates dropout, whose
random mask is an explicit argument.  Out-of-range indexing reads a
default `0`, which is never reached on well-shaped inputs. -/

/-- One channel: values along the position axis. -/
abbrev Chan := List ℝ

/-- One sample: channels × positions. -/
abbrev Sample := List Chan

/-- A batch of samples. -/
abbrev Batch := List Sample

/-- Length along the position axis (`x.shape[-1]`); channels of a tensor
all have equal length, so the first channel's length is read. -/
def sampleLen (s : Sample) : Nat := (s.getD 0 []).length

/-- `nn.ConstantPad1d((pl, pr), 0)`: zero-pad every row along its last
axis. -/
noncomputable def constantPad1d (pl pr : Nat) (s : Sample) : Sample :=
  s.map (fun ch => List.replicate pl (0 : ℝ) ++ ch ++ List.replicate pr 0)

/-- State of a `MyConv1dPadSame` module (`__init__`, lines 34-39): it
stores only `in_channels`, `out_channels`, `kernel_size` and `stride`.
The torch `Conv1d` itself — weight and bias included — is constructed
inside `forward` (lines 47-49) on every call, with freshly drawn random
parameters that are never registered with the model; those tensors are
per-call randomness, not persistent state, and are supplied to the
forward functions below as arguments drawn from the random source. -/
structure ConvParams where
  inChannels : Nat
  outChannels : Nat
  kernel : Nat
  stride : Nat

/-- `torch.nn.Conv1d` (padding 0, dilation 1) with weight `w`
(`[out_channels][in_channels][kernel]`) and bias `b`:
`out[o][j] = b[o] + sum over i, t of w[o][i][t] * x[i][j * stride + t]`. -/
noncomputable def conv1dRaw (kernel stride : Nat) (w : List (List (List ℝ)))
    (b : List ℝ) (s : Sample) : Sample :=
  let L := sampleLen s
  let outLen := convNoPadOutLen kernel stride L
  (List.range w.length).map fun o =>
    (List.range outLen).map fun j =>
      b.getD o 0 +
        ((List.range (w.getD o []).length).map fun i =>
          ((List.range kernel).map fun t =>
            ((w.getD o []).getD i []).getD t 0 *
              (s.getD i []).getD (j * stride + t) 0).sum).sum

/-- `MyConv1dPadSame.forward` (lines 41-50): compute the same-padding
split from the current input length, zero-pad, then convolve with the
`Conv1d` freshly built on this call — its random draw `(w, b)` is this
call's read of the torch global RNG. -/
noncomputable def convSamePadForward (P : ConvParams) (w : List (List (List ℝ)))
    (b : List ℝ) (s : Sample) : Sample :=
  let p := samePadTotal P.kernel P.stride (sampleLen s)
  conv1dRaw P.kernel P.stride w b (constantPad1d (padSplit p).1 (padSplit p).2 s)

/-- State of an `nn.BatchNorm1d` module: per-channel affine weights and
running statistics. -/
structure BNParams where
  gamma : List ℝ
  beta : List ℝ
  mean : List ℝ
  variance : List ℝ
  eps : ℝ

/-- Inference-mode `nn.BatchNorm1d` (the batchnorm modules are built in
`__init__` and persist, running statistics included):
`y = gamma[c] * (x - mean[c]) / sqrt(var[c] + eps) + beta[c]`. -/
noncomputable def batchNorm1dEval (P : BNParams) (s : Sample) : Sample :=
  (List.range s.length).map fun c =>
    (s.getD c []).map fun v =>
      P.gamma.getD c 0 * ((v - P.mean.getD c 0) / Real.sqrt (P.variance.getD c 0 + P.eps))
        + P.beta.getD c 0

/-- `nn.ReLU`: elementwise `max(x, 0)`. -/
noncomputable def reluS (s : Sample) : Sample := s.map (fun ch => ch.map (fun v => max v 0))

/-- A dropout mask: which (channel, position) entries are zeroed. -/
abbrev DropMask := Nat → Nat → Bool

/-- `nn.Dropout(p)`: in training mode, zero masked entries and rescale the
rest by `1 / (1 - p)`; in inference mode, the identity. -/
noncomputable def dropoutS (training : Bool) (m : DropMask) (p : ℝ) (s : Sample) : Sample :=
  if training then
    s.mapIdx fun c ch => ch.mapIdx fun j v => if m c j then 0 else v / (1 - p)
  else s

/-- `torch.nn.MaxPool1d(kernel_size=k)`: the stride argument defaults to
`k`, so `out[c][j] = max over t < k of x[c][j * k + t]`. -/
noncomputable def maxPool1dRaw (kernel : Nat) (s : Sample) : Sample :=
  let L := sampleLen s
  let outLen := maxPoolNoPadOutLen kernel L
  s.map fun ch =>
    (List.range outLen).map fun j =>
      ((List.range kernel).map fun t => ch.getD (j * kernel + t) 0).foldl max
        (ch.getD (j * kernel) 0)

/-- `MyMaxPool1dPadSame.forward` (lines 61-70): same-padding computed with
stride 1, then `MaxPool1d` with its default stride.  The `MaxPool1d` is
also rebuilt on every call (line 69), but it has no parameters, so this
rebuild introduces no randomness. -/
noncomputable def maxPoolSamePadForward (kernel : Nat) (s : Sample) : Sample :=
  let p := samePadTotal kernel 1 (sampleLen s)
  maxPool1dRaw kernel (constantPad1d (padSplit p).1 (padSplit p).2 s)

/-- Identity-branch channel padding (lines 129-133): transpose so channels
are the last axis, `ConstantPad1d((ch1, ch2), 0)`, transpose back.  The
pad amounts are nonnegative for every configuration the progression rule
produces (proved below); `Int.toNat` realizes them as counts. -/
noncomputable def identityChannelPad (inC outC : Int) (s : Sample) : Sample :=
  let ch1 := (identityPadChannels inC outC).1.toNat
  let ch2 := (identityPadChannels inC outC).2.toNat
  (constantPad1d ch1 ch2 s.transpose).transpose

/-- State of a `Bottleneck` module: the derived configuration, the stored
stride, the two batchnorms (persistent, built at `__init__`) and the two
`MyConv1dPadSame` wrappers (persistent, but storing only configuration;
their `Conv1d` stride is `stride` or 1 per lines 90-95, 101). -/
structure BlockParams where
  cfg : BlockCfg
  stride : Nat
  bn1 : BNParams
  bn2 : BNParams
  conv1 : ConvParams
  conv2 : ConvParams

/-- `Bottleneck.forward` (lines 105-138).  The pre-activation runs under
`if self.is_first_block:` (line 111), as in the source; both dropout
layers use `p = 0.5` (lines 89, 100).  `(w1, b1)` and `(w2, b2)` are the
random weights of the two freshly built `Conv1d`s of this call. -/
noncomputable def blockForward (bp : BlockParams) (training : Bool)
    (w1 : List (List (List ℝ))) (b1 : List ℝ) (w2 : List (List (List ℝ)))
    (b2 : List ℝ) (m1 m2 : DropMask) (x : Sample) : Sample :=
  let identity := x
  let out := x
  let out :=
    if bp.cfg.isFirst then dropoutS training m1 (1 / 2) (reluS (batchNorm1dEval bp.bn1 out))
    else out
  let out := convSamePadForward bp.conv1 w1 b1 out
  let out := convSamePadForward bp.conv2 w2 b2
    (dropoutS training m2 (1 / 2) (reluS (batchNorm1dEval bp.bn2 out)))
  let identity :=
    if bp.cfg.downsample then maxPoolSamePadForward bp.stride identity else identity
  let identity :=
    if bp.cfg.outC ≠ bp.cfg.inC then identityChannelPad bp.cfg.inC bp.cfg.outC identity
    else identity
  List.zipWith (List.zipWith (· + ·)) out identity

/-- The randomness one whole forward pass consumes from the torch global
RNG.  `cw n` and `cb n` are the weight and bias drawn by
`reset_parameters` when `torch.nn.Conv1d` is built at conv call site `n`
(line 49): one site per `MyConv1dPadSame.forward` call, shared by the
whole batch.  `dm n b` is the Bernoulli dropout mask drawn at dropout
site `n` for sample `b`.  Two forward passes read the RNG at different
states, so they are modelled by two different `Draw` values. -/
structure Draw where
  cw : Nat → List (List (List ℝ))
  cb : Nat → List ℝ
  dm : Nat → Nat → DropMask

/-- State of the whole `ResNet` module: the pieces registered in
`__init__` and persisting across calls — the batchnorms, the dense
linear layer, and the configuration-only conv wrappers.  No conv weights
appear here: the source never persists any (they are redrawn inside each
forward call). -/
structure NetParams where
  firstConv : ConvParams
  firstBN : BNParams
  blocks : List BlockParams
  finalBN : BNParams
  denseWeight : List (List ℝ)
  denseBias : List ℝ

/-- The residual-block loop of `ResNet.forward` (lines 209-213); block
number `n` builds its two convolutions at conv sites `2n + 1` and
`2n + 2` (site 0 is the network's first conv) and draws its dropout
masks at dropout sites `2n` and `2n + 1`. -/
noncomputable def runBlocks (training : Bool) (d : Draw) (bIdx : Nat) :
    Nat → List BlockParams → Sample → Sample
  | _, [], s => s
  | n, bp :: rest, s =>
      runBlocks training d bIdx (n + 1) rest
        (blockForward bp training (d.cw (2 * n + 1)) (d.cb (2 * n + 1))
          (d.cw (2 * n + 2)) (d.cb (2 * n + 2))
          (d.dm (2 * n) bIdx) (d.dm (2 * n + 1) bIdx) s)

/-- `out.mean(-1)` (line 220): average each channel over the position
axis. -/
noncomputable def meanLast (s : Sample) : List ℝ :=
  s.map (fun ch => ch.sum / (ch.length : ℝ))

/-- `nn.Linear`: `y[o] = sum over i of W[o][i] * v[i] + b[o]`. -/
noncomputable def linearForward (W : List (List ℝ)) (b : List ℝ) (v : List ℝ) : List ℝ :=
  (List.range W.length).map fun o =>
    (List.zipWith (· * ·) (W.getD o []) v).sum + b.getD o 0

/-- `nn.Softmax(dim=1)` on one row:
`out[j] = exp(z[j]) / sum over j of exp(z[j])`. -/
noncomputable def softmaxRow (v : List ℝ) : List ℝ :=
  v.map (fun z => Real.exp z / (v.map Real.exp).sum)

/-- `ResNet.forward` (lines 195-226) on one sample of the batch (the
verbose prints of the source are observational only and not modelled).
All samples of one pass share the pass's conv draws; dropout masks are
per sample. -/
noncomputable def sampleForward (P : NetParams) (training : Bool) (d : Draw)
    (bIdx : Nat) (x : Sample) : List ℝ :=
  let out := convSamePadForward P.firstConv (d.cw 0) (d.cb 0) x
  let out := reluS (batchNorm1dEval P.firstBN out)
  let out := runBlocks training d bIdx 0 P.blocks out
  let out := reluS (batchNorm1dEval P.finalBN out)
  softmaxRow (linearForward P.denseWeight P.denseBias (meanLast out))

/-- `ResNet.forward` over a batch, starting at sample index `bIdx`. -/
noncomputable def resnetForwardFrom (P : NetParams) (training : Bool) (d : Draw) :
    Nat → Batch → List (List ℝ)
  | _, [] => []
  | bIdx, s :: rest =>
      sampleForward P training d bIdx s :: resnetForwardFrom P training d (bIdx + 1) rest

/-- `ResNet.forward` over a batch: one class-score row per sample, given
the random draw `d` this pass reads from the torch global RNG. -/
noncomputable def resnetForward (P : NetParams) (training : Bool) (d : Draw)
    (x : Batch) : List (List ℝ) :=
  resnetForwardFrom P training d 0 x

/-- All elements of a list satisfy a predicate (structural, so that
theorem conclusions carry no embedded binders). -/
def ListAll {α : Type _} (Q : α → Prop) : List α → Prop
  | [] => True
  | a :: rest => Q a ∧ ListAll Q rest

/-- A block list is channel-chained starting from channel count `c`: each
block's `in_channels` equals the channel count its input arrives with. -/
def Chained (c : Int) : List BlockCfg → Prop
  | [] => True
  | cfg :: rest => cfg.inC = c ∧ Chained cfg.outC rest

/-- Identity-like batchnorm state: weight 1, bias 0, running mean 0,
running variance 1, eps 0 — so that inference-mode normalization is the
identity map. -/
noncomputable def idBN : BNParams :=
  { gamma := [1], beta := [0], mean := [0], variance := [1], eps := 0 }

/-- A minimal concrete parameter set (one input channel, block-free body,
one class), used to instantiate theorems at a concrete network. -/
noncomputable def tinyNet : NetParams :=
  { firstConv := { inChannels := 1, outChannels := 1, kernel := 1, stride := 1 },
    firstBN := idBN,
    blocks := [],
    finalBN := idBN,
    denseWeight := [[1]],
    denseBias := [0] }

/-- A two-class concrete parameter set (one input channel, block-free
body), used to exhibit forward-pass nondeterminism. -/
noncomputable def tinyNet2 : NetParams :=
  { firstConv := { inChannels := 1, outChannels := 1, kernel := 1, stride := 1 },
    firstBN := idBN,
    blocks := [],
    finalBN := idBN,
    denseWeight := [[1], [0]],
    denseBias := [0, 0] }

/-- An RNG read whose conv initializations all come out as weight 0,
bias 0 (a possible draw of the per-call `Conv1d` construction). -/
noncomputable def drawZero : Draw :=
  { cw := fun _ => [[[0]]], cb := fun _ => [0], dm := fun _ _ _ _ => false }

/-- An RNG read whose conv initializations all come out as weight 0,
bias 1 (another possible draw: the RNG state has advanced). -/
noncomputable def drawOne : Draw :=
  { cw := fun _ => [[[0]]], cb := fun _ => [1], dm := fun _ _ _ _ => false }

/-! ## Helper lemmas: padding and output-length arithmetic -/

theorem ceil_div_pos (s L : Nat) (hs : 1 ≤ s) (hL : 1 ≤ L) : 1 ≤ (L + s - 1) / s := by
  rw [Nat.le_div_iff_mul_le (by omega)]
  omega

/-- Core same-padding fact: the padded convolution's output length is
exactly the ceiling `(L + s - 1) / s` computed up front. -/
theorem convForwardOutLen_eq (k s L : Nat) (hk : 1 ≤ k) (hs : 1 ≤ s) (hL : 1 ≤ L) :
    convForwardOutLen k s L = (L + s - 1) / s := by
  simp only [convForwardOutLen, convNoPadOutLen, padSplit, samePadTotal]
  set od := (L + s - 1) / s with hod
  have hod1 : 1 ≤ od := ceil_div_pos s L hs hL
  have hmod : s * od + (L + s - 1) % s = L + s - 1 := by
    rw [hod]; exact Nat.div_add_mod _ _
  have hrlt : (L + s - 1) % s < s := Nat.mod_lt _ (by omega)
  set m := (od - 1) * s with hm
  have hms : m + s = s * od := by
    rw [hm]
    calc (od - 1) * s + s = (od - 1 + 1) * s := by ring
      _ = od * s := by rw [Nat.sub_add_cancel hod1]
      _ = s * od := Nat.mul_comm _ _
  set p := m + k - L with hp
  have hsum : p / 2 + L + (p - p / 2) - k = L + p - k := by omega
  rw [hsum]
  by_cases hcase : L ≤ m + k
  · have h1 : L + p - k = m := by omega
    rw [h1, hm, Nat.mul_div_cancel _ (show 0 < s by omega)]
    omega
  · have h2 : L + p - k = L - k := by omega
    rw [h2]
    have hdiv : (L - k) / s = od - 1 := by
      apply Nat.div_eq_of_lt_le
      · rw [← hm]; omega
      · rw [Nat.sub_add_cancel hod1, Nat.mul_comm]
        omega
    rw [hdiv]
    omega

/-- Core pooling fact: `MyMaxPool1dPadSame` pads by `kernel - 1` and then
pools with the torch default stride (= kernel), so the output length is
the ceiling `(L + k - 1) / k`, not `L`. -/
theorem maxPoolSamePadOutLen_eq (k L : Nat) (hk : 1 ≤ k) (hL : 1 ≤ L) :
    maxPoolSamePadOutLen k L = (L + k - 1) / k := by
  simp only [maxPoolSamePadOutLen, maxPoolNoPadOutLen, padSplit, samePadTotal]
  rw [show L + 1 - 1 = L from by omega, Nat.div_one]
  set p := (L - 1) * 1 + k - L with hp
  have hpk : p = k - 1 := by rw [hp]; omega
  have h1 : p / 2 + L + (p - p / 2) - k = L - 1 := by omega
  rw [h1, show L + k - 1 = L - 1 + k from by omega,
    Nat.add_div_right _ (show 0 < k by omega)]

/-! ## Helper lemmas: the progression rule chains -/

theorem blockCfgList_getD (b : Int) (n i : Nat) (h : i < n) :
    (blockCfgList b n).getD i dummyCfg = blockCfg b i := by
  simp [blockCfgList, List.getD, List.getElem?_map, List.getElem?_range h]

/-- Consecutive derived configurations agree on channels: block `i + 1`
consumes exactly the channel count block `i` produces. -/
theorem blockCfg_chain (b : Int) (i : Nat) :
    (blockCfg b (i + 1)).inC = (blockCfg b i).outC := by
  rcases Nat.eq_zero_or_pos i with hz | hpos
  · subst hz; simp [blockCfg]
  · have h0 : (i == 0) = false := by simp; omega
    have h1 : (i + 1 == 0) = false := by simp
    by_cases hpar : i % 2 = 1
    · have e2 : i / 2 = (i - 1) / 2 := by omega
      simp [blockCfg, h0, h1, hpar, e2]
    · have hpar0 : i % 2 = 0 := by omega
      have e3 : (i - 1) / 2 + 1 = i / 2 := by omega
      simp [blockCfg, h0, h1, hpar0]
      rw [← e3, pow_succ]
      ring

theorem chained_range' (b : Int) :
    ∀ (m i : Nat), Chained (blockCfg b i).inC ((List.range' i m).map (blockCfg b)) := by
  intro m
  induction m with
  | zero => intro i; exact trivial
  | succ m ih =>
      intro i
      rw [List.range'_succ, List.map_cons]
      refine ⟨rfl, ?_⟩
      have h := ih (i + 1)
      rwa [blockCfg_chain] at h

/-- The full derived block list is channel-chained from `base_filters`,
the channel count produced by the network's first convolution. -/
theorem chained_blockCfgList (b : Int) (n : Nat) : Chained b (blockCfgList b n) := by
  have h := chained_range' b n 0
  have h0 : (blockCfg b 0).inC = b := by simp [blockCfg]
  rw [blockCfgList, List.range_eq_range']
  rwa [h0] at h

/-! ## Helper lemmas: shape alignment inside a bottleneck block -/

theorem bottleneckMainShape_eq (cfg : BlockCfg) (k s : Nat) (sh : Shape2)
    (hk : 1 ≤ k) (hs : 1 ≤ s) (hL : 1 ≤ sh.len) :
    bottleneckMainShape cfg k s sh
      = { chans := cfg.outC,
          len := (sh.len + (if cfg.downsample then s else 1) - 1)
            / (if cfg.downsample then s else 1) } := by
  simp only [bottleneckMainShape]
  set s1 := if cfg.downsample then s else 1 with hs1
  have hs1pos : 1 ≤ s1 := by rw [hs1]; split <;> omega
  have h1 : convForwardOutLen k s1 sh.len = (sh.len + s1 - 1) / s1 :=
    convForwardOutLen_eq _ _ _ hk hs1pos hL
  have hpos : 1 ≤ (sh.len + s1 - 1) / s1 := ceil_div_pos _ _ hs1pos hL
  rw [h1, convForwardOutLen_eq k 1 _ hk (le_refl 1) hpos]
  simp

theorem bottleneckIdentityShape_eq (cfg : BlockCfg) (s : Nat) (sh : Shape2)
    (hs : 1 ≤ s) (hL : 1 ≤ sh.len) (hc : sh.chans = cfg.inC) :
    bottleneckIdentityShape cfg s sh
      = { chans := cfg.outC,
          len := (sh.len + (if cfg.downsample then s else 1) - 1)
            / (if cfg.downsample then s else 1) } := by
  simp only [bottleneckIdentityShape, identityPadChannels]
  refine congrArg₂ Shape2.mk ?_ ?_
  · by_cases h : cfg.outC = cfg.inC
    · rw [if_neg (by simp [h]), hc, h]
    · rw [if_pos h, hc]
      ring
  · by_cases hds : cfg.downsample
    · rw [if_pos hds, if_pos hds, maxPoolSamePadOutLen_eq s sh.len hs hL]
    · rw [if_neg hds, if_neg hds]
      omega

theorem bottleneckAddShape_eq (cfg : BlockCfg) (k s : Nat) (sh : Shape2)
    (hk : 1 ≤ k) (hs : 1 ≤ s) (hL : 1 ≤ sh.len) (hc : sh.chans = cfg.inC) :
    bottleneckAddShape cfg k s sh = some (bottleneckMainShape cfg k s sh) := by
  simp only [bottleneckAddShape]
  rw [bottleneckMainShape_eq cfg k s sh hk hs hL,
    bottleneckIdentityShape_eq cfg s sh hs hL hc]
  simp

theorem bottleneckMainShape_len_pos (cfg : BlockCfg) (k s : Nat) (sh : Shape2)
    (hk : 1 ≤ k) (hs : 1 ≤ s) (hL : 1 ≤ sh.len) :
    1 ≤ (bottleneckMainShape cfg k s sh).len := by
  rw [bottleneckMainShape_eq cfg k s sh hk hs hL]
  exact ceil_div_pos _ _ (by split <;> omega) hL

theorem runBlocksShape_isSome (k s : Nat) (hk : 1 ≤ k) (hs : 1 ≤ s) :
    ∀ (l : List BlockCfg) (sh : Shape2), Chained sh.chans l → 1 ≤ sh.len →
      (runBlocksShape k s l sh).isSome = true := by
  intro l
  induction l with
  | nil => intro sh _ _; rfl
  | cons cfg rest ih =>
      intro sh hch hL
      obtain ⟨hc, hrest⟩ := hch
      rw [runBlocksShape, bottleneckAddShape_eq cfg k s sh hk hs hL hc.symm]
      refine ih _ ?_ (bottleneckMainShape_len_pos cfg k s sh hk hs hL)
      rw [bottleneckMainShape_eq cfg k s sh hk hs hL]
      exact hrest

/-! ## Claim theorems -/

/-- Claim C1 (code bug): the claim states that the pre-activation
(batchnorm → relu → dropout) runs before the first convolution exactly
when `is_first_block` is false.  The code's guard (line 111) is
`if self.is_first_block:`, the inverse: with `is_first_block = false` the
raw input goes straight into the first convolution, and with
`is_first_block = true` the pre-activation runs — immediately after the
network's own initial batchnorm/relu, the double normalization the spec's
design rationale rules out. -/
theorem c1_preactivation_guard_inverted :
    bottleneckMainBranchOps false
        = [.convFirst, .batchnorm, .relu, .dropout, .convSecond] ∧
      bottleneckMainBranchOps true
        = [.batchnorm, .relu, .dropout, .convFirst, .batchnorm, .relu, .dropout,
            .convSecond] :=
  ⟨rfl, rfl⟩

/-- Claim C2: the derived block configuration list satisfies the
progression rule: `is_first_block` exactly at index 0, `downsample` at
odd indices, block 0 has `in = out = base_filters`, and block `i > 0` has
`in = base_filters * 2 ^ ((i - 1) / 2)` with `out = in` when
downsampling, else `out = 2 * in`. -/
theorem c2_progression_rule (b : Int) (n i : Nat) (hn : 1 ≤ n) (hi : i < n) :
    ((blockCfgList b n).getD i dummyCfg).isFirst = (i == 0) ∧
      ((blockCfgList b n).getD i dummyCfg).downsample = (i % 2 == 1) ∧
      (i = 0 → ((blockCfgList b n).getD i dummyCfg).inC = b ∧
        ((blockCfgList b n).getD i dummyCfg).outC = b) ∧
      (0 < i → ((blockCfgList b n).getD i dummyCfg).inC = b * 2 ^ ((i - 1) / 2) ∧
        ((blockCfgList b n).getD i dummyCfg).outC =
          (if i % 2 = 1 then ((blockCfgList b n).getD i dummyCfg).inC
            else 2 * ((blockCfgList b n).getD i dummyCfg).inC)) := by
  rw [blockCfgList_getD b n i hi]
  by_cases hi0 : i = 0
  · subst hi0
    refine ⟨rfl, rfl, fun _ => ⟨rfl, rfl⟩, by omega⟩
  · have h0 : (i == 0) = false := by simp [hi0]
    refine ⟨by simp [blockCfg, h0], by simp [blockCfg, h0], by omega, fun _ => ?_⟩
    by_cases hpar : i % 2 = 1
    · refine ⟨by simp [blockCfg, h0], ?_⟩
      simp [blockCfg, h0, hpar]
    · have hpar0 : i % 2 = 0 := by omega
      refine ⟨by simp [blockCfg, h0], ?_⟩
      simp [blockCfg, h0, hpar0, hpar]
      ring

theorem c2_progression_rule_witness :
    1 ≤ 3 ∧ 2 < 3 ∧
      (((blockCfgList 8 3).getD 2 dummyCfg).isFirst = (2 == 0) ∧
        ((blockCfgList 8 3).getD 2 dummyCfg).downsample = (2 % 2 == 1) ∧
        (2 = 0 → ((blockCfgList 8 3).getD 2 dummyCfg).inC = 8 ∧
          ((blockCfgList 8 3).getD 2 dummyCfg).outC = 8) ∧
        (0 < 2 → ((blockCfgList 8 3).getD 2 dummyCfg).inC = 8 * 2 ^ ((2 - 1) / 2) ∧
          ((blockCfgList 8 3).getD 2 dummyCfg).outC =
            (if 2 % 2 = 1 then ((blockCfgList 8 3).getD 2 dummyCfg).inC
              else 2 * ((blockCfgList 8 3).getD 2 dummyCfg).inC))) :=
  ⟨by decide, by decide, c2_progression_rule 8 3 2 (by decide) (by decide)⟩

/-- Claim C3: for every positive kernel size, stride and input length,
`MyConv1dPadSame` produces output length `ceil(L / stride)` — written
`(L + stride - 1) / stride` in natural-number arithmetic — where the
underlying convolution output length follows the standard no-padding
formula; in particular the output length is exactly `L` when
`stride = 1`. -/
theorem c3_conv_same_pad_out_len (kernel stride L : Nat)
    (hk : 1 ≤ kernel) (hs : 1 ≤ stride) (hL : 1 ≤ L) :
    convForwardOutLen kernel stride L = (L + stride - 1) / stride ∧
      convForwardOutLen kernel 1 L = L := by
  refine ⟨convForwardOutLen_eq kernel stride L hk hs hL, ?_⟩
  have h := convForwardOutLen_eq kernel 1 L hk (le_refl 1) hL
  simpa using h

theorem c3_conv_same_pad_out_len_witness :
    1 ≤ 16 ∧ 1 ≤ 3 ∧ 1 ≤ 200 ∧
      (convForwardOutLen 16 3 200 = (200 + 3 - 1) / 3 ∧
        convForwardOutLen 16 1 200 = 200) :=
  ⟨by decide, by decide, by decide,
    c3_conv_same_pad_out_len 16 3 200 (by decide) (by decide) (by decide)⟩

/-- Claim C4: for every network derived by the progression rule (any
`n_block` and `base_filters`, covering the claimed ranges 1..50 and
8/16/32/64) and every input length ≥ 1, the shape-level run of the whole
residual stage succeeds: in every bottleneck block the main branch and
the adjusted identity branch agree exactly on channels and length at the
residual addition, so the addition never fails.  The batch dimension is
untouched by every layer involved. -/
theorem c4_residual_add_never_fails (b : Int) (k s n L : Nat)
    (hk : 1 ≤ k) (hs : 1 ≤ s) (hL : 1 ≤ L) :
    (resnetShapeRun b k s n L).isSome = true := by
  unfold resnetShapeRun
  apply runBlocksShape_isSome k s hk hs _ _ (chained_blockCfgList b n)
  show 1 ≤ convForwardOutLen k 1 L
  rw [convForwardOutLen_eq k 1 L hk (le_refl 1) hL]
  exact ceil_div_pos 1 L (le_refl 1) hL

theorem c4_residual_add_never_fails_witness :
    1 ≤ 16 ∧ 1 ≤ 3 ∧ 1 ≤ 200 ∧ (resnetShapeRun 64 16 3 50 200).isSome = true :=
  ⟨by decide, by decide, by decide,
    c4_residual_add_never_fails 64 16 3 50 200 (by decide) (by decide) (by decide)⟩

/-- Claim C5 counterexample: the claim states `SamePadMaxPool1D` output
length equals the input length for every kernel size (window sliding with
stride 1).  In the code, `torch.nn.MaxPool1d(kernel_size=k)` receives no
stride argument, so its stride defaults to `k`: with kernel 2 on input
length 4 the output length is 2, not 4. -/
theorem c5_maxpool_counterexample :
    maxPoolSamePadOutLen 2 4 = 2 ∧ maxPoolSamePadOutLen 2 4 ≠ 4 := by
  decide

/-- Claim C5 (amended): for every kernel size ≥ 1 and input length ≥ 1,
`SamePadMaxPool1D` produces output length `ceil(L / kernel)` — the
padding is computed for stride 1 (total `kernel - 1`), but the pooling
window slides with stride `kernel` (the torch default), shrinking the
length.  Output length equals `L` exactly in the `kernel = 1` case. -/
theorem c5_maxpool_out_len (k L : Nat) (hk : 1 ≤ k) (hL : 1 ≤ L) :
    maxPoolSamePadOutLen k L = (L + k - 1) / k :=
  maxPoolSamePadOutLen_eq k L hk hL

theorem c5_maxpool_out_len_witness :
    1 ≤ 3 ∧ 1 ≤ 10 ∧ maxPoolSamePadOutLen 3 10 = (10 + 3 - 1) / 3 :=
  ⟨by decide, by decide, c5_maxpool_out_len 3 10 (by decide) (by decide)⟩

/-- Claim C7 counterexample: the claim states that constructing the
network with a non-positive kernel size fails at construction time with a
configuration error.  In the code `MyConv1dPadSame.__init__` only stores
its arguments and the torch `Conv1d` is first built inside `forward`, so
construction with `kernel_size = 0` succeeds. -/
theorem c7_counterexample : (resnetInit 12 64 0 1 10 3).isOk = true := by
  decide

/-- Claim C7 (amended): construction performs no validation.  For
nonnegative `base_filters` and `n_classes` (so that the torch layer
constructors reached at `__init__` time succeed), construction succeeds
exactly when `n_block ≥ 1` — for `n_block < 1` it fails because line 190
reads the loop variable `out_channels` that the empty loop never bound
(a `NameError`, not a deliberate configuration check).  Non-positive
kernel size or stride is accepted at construction and can only fail at
the first forward pass. -/
theorem c7_construction_succeeds_iff (inC b k s nB nC : Int)
    (hb : 0 ≤ b) (hnc : 0 ≤ nC) :
    (resnetInit inC b k s nB nC).isOk = true ↔ 1 ≤ nB := by
  have hlen : (blockCfgList b nB.toNat).length = nB.toNat := by
    simp [blockCfgList]
  rcases hcase : (blockCfgList b nB.toNat).getLast? with _ | last
  · have hnil : blockCfgList b nB.toNat = [] := by
      rwa [List.getLast?_eq_none_iff] at hcase
    have hz : nB.toNat = 0 := by rw [← hlen, hnil]; rfl
    simp only [resnetInit, hcase]
    constructor
    · intro h
      exact absurd h (by decide)
    · intro h
      exact absurd h (by omega)
  · have hne : blockCfgList b nB.toNat ≠ [] := by
      intro hnil
      rw [hnil] at hcase
      exact Option.noConfusion hcase
    have hpos : 0 < nB.toNat := by
      rcases Nat.eq_zero_or_pos nB.toNat with hz | hp
      · exact absurd (List.eq_nil_of_length_eq_zero (hlen.trans hz)) hne
      · exact hp
    simp only [resnetInit, hcase]
    constructor
    · intro _
      omega
    · intro _
      rfl

theorem c7_construction_succeeds_iff_witness :
    (0 : Int) ≤ 64 ∧ (0 : Int) ≤ 3 ∧
      ((resnetInit 12 64 16 3 10 3).isOk = true ↔ (1 : Int) ≤ 10) :=
  ⟨by decide, by decide, c7_construction_succeeds_iff 12 64 16 3 10 3 (by decide) (by decide)⟩

/-- Claim C9: for every total padding amount `p`, the split
`pad_left = p // 2`, `pad_right = p - pad_left` satisfies
`pad_left + pad_right = p` with `pad_right - pad_left ∈ {0, 1}`; and in
the identity channel padding with `out_channels > in_channels`,
`ch1 + ch2 = out_channels - in_channels` with `ch2 - ch1 ∈ {0, 1}`, the
extra zero channel going after (ch2 = ch1 + 1) when the difference is
odd. -/
theorem c9_padding_split (p : Nat) (inC outC : Int) (h : inC < outC) :
    ((padSplit p).1 + (padSplit p).2 = p ∧
      ((padSplit p).2 - (padSplit p).1 = 0 ∨ (padSplit p).2 - (padSplit p).1 = 1)) ∧
      ((identityPadChannels inC outC).1 + (identityPadChannels inC outC).2
          = outC - inC ∧
        ((identityPadChannels inC outC).2 - (identityPadChannels inC outC).1 = 0 ∨
          (identityPadChannels inC outC).2 - (identityPadChannels inC outC).1 = 1) ∧
        ((outC - inC) % 2 = 1 →
          (identityPadChannels inC outC).2 = (identityPadChannels inC outC).1 + 1)) := by
  have hfd : (outC - inC).fdiv 2 = (outC - inC) / 2 :=
    Int.fdiv_eq_ediv _ (by norm_num)
  refine ⟨⟨?_, ?_⟩, ?_, ?_, ?_⟩
  · simp only [padSplit]
    omega
  · simp only [padSplit]
    omega
  · simp only [identityPadChannels]
    ring
  · simp only [identityPadChannels]
    rw [hfd]
    omega
  · simp only [identityPadChannels]
    rw [hfd]
    omega

theorem c9_padding_split_witness :
    (3 : Int) < 5 ∧
      (((padSplit 7).1 + (padSplit 7).2 = 7 ∧
        ((padSplit 7).2 - (padSplit 7).1 = 0 ∨ (padSplit 7).2 - (padSplit 7).1 = 1)) ∧
        ((identityPadChannels 3 5).1 + (identityPadChannels 3 5).2 = 5 - 3 ∧
          ((identityPadChannels 3 5).2 - (identityPadChannels 3 5).1 = 0 ∨
            (identityPadChannels 3 5).2 - (identityPadChannels 3 5).1 = 1) ∧
          (((5 : Int) - 3) % 2 = 1 →
            (identityPadChannels 3 5).2 = (identityPadChannels 3 5).1 + 1))) :=
  ⟨by decide, c9_padding_split 7 3 5 (by decide)⟩

/-- Claim C10: every configuration derived by the construction loop (any
block index below `n_block`, `base_filters ≥ 1`) has
`out_channels ∈ {in_channels, 2 * in_channels}`, hence
`out_channels ≥ in_channels`, and the identity-branch channel-adjustment
amounts `ch1`, `ch2` are nonnegative — the adjustment is always
zero-padding, never cropping. -/
theorem c10_out_channels_ge (b : Int) (n i : Nat) (cfg : BlockCfg)
    (hb : 1 ≤ b) (hi : i < n)
    (hcfg : (blockCfgList b n).getD i dummyCfg = cfg) :
    (cfg.outC = cfg.inC ∨ cfg.outC = 2 * cfg.inC) ∧ cfg.inC ≤ cfg.outC ∧
      0 ≤ (identityPadChannels cfg.inC cfg.outC).1 ∧
      0 ≤ (identityPadChannels cfg.inC cfg.outC).2 := by
  rw [blockCfgList_getD b n i hi] at hcfg
  subst hcfg
  by_cases hi0 : i = 0
  · subst hi0
    refine ⟨Or.inl rfl, le_refl _, ?_, ?_⟩ <;> simp [blockCfg, identityPadChannels]
  · have h0 : (i == 0) = false := by simp [hi0]
    have hpow : (0 : Int) < 2 ^ ((i - 1) / 2) := pow_pos (by norm_num) _
    have hcin : 1 ≤ b * 2 ^ ((i - 1) / 2) := by
      calc (1 : Int) = 1 * 1 := by ring
        _ ≤ b * 2 ^ ((i - 1) / 2) := by
          apply mul_le_mul hb (by omega) (by norm_num) (by omega)
    by_cases hpar : i % 2 = 1
    · have hcfg2 : blockCfg b i
          = { inC := b * 2 ^ ((i - 1) / 2), outC := b * 2 ^ ((i - 1) / 2),
              downsample := true, isFirst := false } := by
        simp [blockCfg, h0, hpar]
      rw [hcfg2]
      refine ⟨Or.inl rfl, le_refl _, ?_, ?_⟩ <;>
        simp [identityPadChannels]
    · have hpar0 : i % 2 = 0 := by omega
      have hcfg2 : blockCfg b i
          = { inC := b * 2 ^ ((i - 1) / 2), outC := b * 2 ^ ((i - 1) / 2) * 2,
              downsample := false, isFirst := false } := by
        simp [blockCfg, h0, hpar0]
      rw [hcfg2]
      set c := b * 2 ^ ((i - 1) / 2) with hc
      have hfd : (c * 2 - c).fdiv 2 = (c * 2 - c) / 2 :=
        Int.fdiv_eq_ediv _ (by norm_num)
      refine ⟨Or.inr ?_, ?_, ?_, ?_⟩
      · show c * 2 = 2 * c
        ring
      · show c ≤ c * 2
        omega
      · show 0 ≤ (identityPadChannels c (c * 2)).1
        simp only [identityPadChannels]
        rw [hfd]
        omega
      · show 0 ≤ (identityPadChannels c (c * 2)).2
        simp only [identityPadChannels]
        rw [hfd]
        omega

theorem c10_out_channels_ge_witness :
    1 ≤ (8 : Int) ∧ 2 < 4 ∧
      ((blockCfgList 8 4).getD 2 dummyCfg
        = { inC := 8, outC := 16, downsample := false, isFirst := false }) ∧
      ((({ inC := 8, outC := 16, downsample := false, isFirst := false } : BlockCfg).outC
            = ({ inC := 8, outC := 16, downsample := false, isFirst := false } : BlockCfg).inC ∨
          ({ inC := 8, outC := 16, downsample := false, isFirst := false } : BlockCfg).outC
            = 2 * ({ inC := 8, outC := 16, downsample := false, isFirst := false } : BlockCfg).inC) ∧
        ({ inC := 8, outC := 16, downsample := false, isFirst := false } : BlockCfg).inC
          ≤ ({ inC := 8, outC := 16, downsample := false, isFirst := false } : BlockCfg).outC ∧
        0 ≤ (identityPadChannels 8 16).1 ∧ 0 ≤ (identityPadChannels 8 16).2) :=
  ⟨by decide, by decide, by decide,
    c10_out_channels_ge 8 4 2
      { inC := 8, outC := 16, downsample := false, isFirst := false }
      (by decide) (by decide) (by decide)⟩

/-! ## Helper lemmas: the softmax head -/

theorem sum_map_div (l : List ℝ) (f : ℝ → ℝ) (c : ℝ) :
    (l.map (fun z => f z / c)).sum = (l.map f).sum / c := by
  induction l with
  | nil => simp
  | cons a t ih => simp [ih, add_div]

theorem expSum_pos (v : List ℝ) (hv : v ≠ []) : 0 < (v.map Real.exp).sum := by
  apply List.sum_pos
  · intro x hx
    rcases List.mem_map.mp hx with ⟨z, _, rfl⟩
    exact Real.exp_pos z
  · simp [hv]

theorem listAll_map {α β : Type _} (f : α → β) (Q : β → Prop) (h : ∀ a, Q (f a)) :
    ∀ l : List α, ListAll Q (l.map f) := by
  intro l
  induction l with
  | nil => exact trivial
  | cons a t ih => exact ⟨h a, ih⟩

theorem softmaxRow_sum (v : List ℝ) (hv : v ≠ []) : (softmaxRow v).sum = 1 := by
  simp only [softmaxRow]
  rw [sum_map_div v Real.exp _]
  exact div_self (ne_of_gt (expSum_pos v hv))

theorem softmaxRow_nonneg (v : List ℝ) :
    ListAll (fun a => (0 : ℝ) ≤ a) (softmaxRow v) := by
  rcases eq_or_ne v [] with rfl | hv
  · exact trivial
  · exact listAll_map _ _
      (fun z => div_nonneg (Real.exp_pos z).le (expSum_pos v hv).le) v

theorem softmaxRow_length (v : List ℝ) : (softmaxRow v).length = v.length := by
  simp [softmaxRow]

theorem linearForward_length (W : List (List ℝ)) (b v : List ℝ) :
    (linearForward W b v).length = W.length := by
  simp [linearForward]

theorem sampleForward_spec (P : NetParams) (training : Bool) (d : Draw)
    (bIdx : Nat) (x : Sample) (hW : 0 < P.denseWeight.length) :
    (sampleForward P training d bIdx x).length = P.denseWeight.length ∧
      (sampleForward P training d bIdx x).sum = 1 ∧
      ListAll (fun a => (0 : ℝ) ≤ a) (sampleForward P training d bIdx x) := by
  simp only [sampleForward]
  set row := linearForward P.denseWeight P.denseBias
    (meanLast (reluS (batchNorm1dEval P.finalBN
      (runBlocks training d bIdx 0 P.blocks
        (reluS (batchNorm1dEval P.firstBN
          (convSamePadForward P.firstConv (d.cw 0) (d.cb 0) x))))))) with hrow
  have hlen : row.length = P.denseWeight.length := by
    rw [hrow]; exact linearForward_length _ _ _
  have hne : row ≠ [] := List.ne_nil_of_length_pos (by rw [hlen]; exact hW)
  exact ⟨by rw [softmaxRow_length, hlen], softmaxRow_sum row hne, softmaxRow_nonneg row⟩

theorem resnetForwardFrom_spec (P : NetParams) (training : Bool)
    (d : Draw) (hW : 0 < P.denseWeight.length) :
    ∀ (x : Batch) (bIdx : Nat),
      (resnetForwardFrom P training d bIdx x).length = x.length ∧
        ListAll (fun r => r.length = P.denseWeight.length ∧ r.sum = 1 ∧
          ListAll (fun a => (0 : ℝ) ≤ a) r) (resnetForwardFrom P training d bIdx x) := by
  intro x
  induction x with
  | nil => intro bIdx; exact ⟨rfl, trivial⟩
  | cons s rest ih =>
      intro bIdx
      obtain ⟨ihlen, ihall⟩ := ih (bIdx + 1)
      exact ⟨by simp only [resnetForwardFrom, List.length_cons, ihlen],
        ⟨sampleForward_spec P training d bIdx s hW, ihall⟩⟩

/-! ## Claim theorems: value level -/

/-- Claim C6 (code bug): the claim says two inference-mode forward passes
on identical input with fixed layer parameters produce identical output.
But `MyConv1dPadSame.forward` (line 49) constructs a fresh
`torch.nn.Conv1d` — with newly drawn random weight and bias, never
registered with the model — inside every call, so the second pass reads
the global RNG at a different state and convolves with different
weights; `model.eval()` does not disable this (it only gates dropout and
batchnorm statistics).  Evaluated at a concrete failing input: on the
two-class head `tinyNet2` and input batch `[[[0]]]`, a pass whose conv
draw is (weight 0, bias 0) outputs `[[1/2, 1/2]]` while a pass whose
conv draw is (weight 0, bias 1) outputs
`[[e/(e+1), 1/(e+1)]]`, and the two differ. -/
theorem c6_forward_nondeterministic :
    resnetForward tinyNet2 false drawZero [[[0]]]
      ≠ resnetForward tinyNet2 false drawOne [[[0]]] := by
  have hA : resnetForward tinyNet2 false drawZero [[[0]]]
      = [[1 / 2, 1 / 2]] := by
    simp [resnetForward, resnetForwardFrom, sampleForward, runBlocks,
      convSamePadForward, conv1dRaw, constantPad1d, sampleLen, samePadTotal,
      padSplit, convNoPadOutLen, batchNorm1dEval, reluS, meanLast,
      linearForward, softmaxRow, tinyNet2, idBN, drawZero, List.range_succ,
      Real.sqrt_one, Real.exp_zero]
    norm_num
  have hB : resnetForward tinyNet2 false drawOne [[[0]]]
      = [[Real.exp 1 / (Real.exp 1 + 1), 1 / (Real.exp 1 + 1)]] := by
    simp [resnetForward, resnetForwardFrom, sampleForward, runBlocks,
      convSamePadForward, conv1dRaw, constantPad1d, sampleLen, samePadTotal,
      padSplit, convNoPadOutLen, batchNorm1dEval, reluS, meanLast,
      linearForward, softmaxRow, tinyNet2, idBN, drawOne, List.range_succ,
      Real.sqrt_one, Real.exp_zero]
  rw [hA, hB]
  intro h
  have hexp : (2 : ℝ) ≤ Real.exp 1 := by
    have h1 := Real.add_one_le_exp (1 : ℝ)
    linarith
  have hne : Real.exp 1 + 1 ≠ 0 := by positivity
  injection h with hh _
  injection hh with h1 hrest
  injection hrest with h2 _
  field_simp [hne] at h2
  linarith

/-- Claim C8: the full forward pass returns one row per input sample,
each row of length `n_classes` (the number of rows of the final linear
layer's weight — the `nn.Linear` of line 192, which is persistent), with
every entry nonnegative and summing to 1 — a probability distribution
per sample (requires `n_classes ≥ 1`; softmax of an empty row would be
empty).  This holds for every parameter set, every random draw, either
training mode and every input batch. -/
theorem c8_output_distribution (P : NetParams) (training : Bool)
    (d : Draw) (x : Batch) (hW : 0 < P.denseWeight.length) :
    (resnetForward P training d x).length = x.length ∧
      ListAll (fun r => r.length = P.denseWeight.length ∧ r.sum = 1 ∧
        ListAll (fun a => (0 : ℝ) ≤ a) r) (resnetForward P training d x) :=
  resnetForwardFrom_spec P training d hW x 0

theorem c8_output_distribution_witness :
    0 < tinyNet.denseWeight.length ∧
      ((resnetForward tinyNet false drawZero [[[0]]]).length
          = ([[[(0 : ℝ)]]] : Batch).length ∧
        ListAll (fun r => r.length = tinyNet.denseWeight.length ∧ r.sum = 1 ∧
          ListAll (fun a => (0 : ℝ) ≤ a) r)
          (resnetForward tinyNet false drawZero [[[0]]])) :=
  ⟨by simp [tinyNet],
    c8_output_distribution tinyNet false drawZero [[[0]]] (by simp [tinyNet])⟩

end ResNet1D
